import Mathlib

/-!
# Verification of the JAX-Learning notebooks

Shallow embedding of the two notebooks in this repository: the optax
training notebook (a toy parity classifier trained with adam and with a
clipped adamw + warmup-cosine schedule) and the jitting notebook
(tracing examples and their ConcretizationTypeError failures), together
with theorems settling the specification's claims about them.
-/

namespace JaxLearning

/-! ## Training-data generation (optax notebook, cell 1)

`RAW_TRAINING_DATA = np.random.randint(255, size=(NUM_TRAIN_STEPS, BATCH_SIZE, 1))`
`TRAINING_DATA = np.unpackbits(RAW_TRAINING_DATA.astype(np.uint8), axis=-1)`
`LABELS = jax.nn.one_hot(RAW_TRAINING_DATA % 2, 2)`
-/

def BATCH_SIZE : ℕ := 5

def NUM_TRAIN_STEPS : ℕ := 1000

/-- `np.unpackbits` applied to a single uint8 value: the eight bits of `x`,
most-significant bit first (numpy default bit order is big-endian). -/
def unpackbits (x : ℕ) : List ℕ :=
  (List.range 8).map (fun i => x / 2 ^ (7 - i) % 2)

/-- `jax.nn.one_hot (k, n)`: the length-`n` vector that is `1` at index `k`
and `0` elsewhere. -/
def oneHot (k n : ℕ) : List ℕ :=
  (List.range n).map (fun j => if j = k then 1 else 0)

/-- The feature vector generated for a raw integer `x`: its eight unpacked
bits. -/
def trainingFeatures (x : ℕ) : List ℕ := unpackbits x

/-- The label generated for a raw integer `x`: the one-hot encoding over two
classes of `x % 2`. -/
def trainingLabel (x : ℕ) : List ℕ := oneHot (x % 2) 2

/-- Bit-vector reconstruction, most-significant bit first: folds the list as
base-2 digits, so `msbValue [b0, ..., b7] = b0 * 128 + ... + b7`. -/
def msbValue (bits : List ℕ) : ℕ :=
  bits.foldl (fun a b => 2 * a + b) 0

/-- C1: for every raw integer drawn by `np.random.randint(255)` (so in
`[0, 255)`), the feature vector is the list of its eight bits with the
most-significant bit first (witnessed by the base-2 reconstruction
`msbValue` recovering the integer), each entry is a bit, the label is the
one-hot encoding over two classes of the integer's parity, and that parity
class equals the last (least-significant) entry of the feature vector. -/
theorem training_example_parity (x : ℕ) (hx : x < 255) :
    (trainingFeatures x).length = 8 ∧
    (∀ b ∈ trainingFeatures x, b < 2) ∧
    msbValue (trainingFeatures x) = x ∧
    trainingLabel x = oneHot (x % 2) 2 ∧
    (trainingFeatures x).getLast? = some (x % 2) := by
  revert hx
  revert x
  set_option maxRecDepth 4000 in decide

theorem training_example_parity_witness :
    (3 : ℕ) < 255 ∧
      ((trainingFeatures 3).length = 8 ∧
        (∀ b ∈ trainingFeatures 3, b < 2) ∧
        msbValue (trainingFeatures 3) = 3 ∧
        trainingLabel 3 = oneHot (3 % 2) 2 ∧
        (trainingFeatures 3).getLast? = some (3 % 2)) :=
  ⟨by decide, training_example_parity 3 (by decide)⟩

/-! ## Tracing and jit (jitting notebook)

The notebook demonstrates `jax.jit` on
`def f(x): if x > 0: return x else: return 2 * x` and
`def g(x, n): i = 0; while i < n: i += 1; return x + i`.
The framework itself is external, so its tracing model is embedded from
the behaviour the spec and the recorded notebook outputs describe. -/

/-- Modelled from the spec: under `jax.jit` tracing, an argument is either a
concrete Python value (a static argument) or an abstract shaped tracer with
no concrete value. -/
inductive JaxVal where
  | conc : ℤ → JaxVal
  | tracer : JaxVal
deriving DecidableEq

/-- Modelled from the spec: the error raised when a concrete value is
required of an abstract tracer. -/
inductive TraceError where
  | concretizationTypeError
deriving DecidableEq

/-- Addition is a jax operation: it is recorded on tracers, so it never
fails; on concrete values it is plain addition. -/
def jadd : JaxVal → JaxVal → JaxVal
  | JaxVal.conc a, JaxVal.conc b => JaxVal.conc (a + b)
  | _, _ => JaxVal.tracer

/-- Multiplication is likewise a recorded jax operation. -/
def jmul : JaxVal → JaxVal → JaxVal
  | JaxVal.conc a, JaxVal.conc b => JaxVal.conc (a * b)
  | _, _ => JaxVal.tracer

/-- Modelled from the spec: Python `if` and `while` coerce a comparison of
traced values to a concrete `bool`; this raises `ConcretizationTypeError`
when either side is an abstract tracer. -/
def pyBoolLt : JaxVal → JaxVal → Except TraceError Bool
  | JaxVal.conc a, JaxVal.conc b => Except.ok (decide (a < b))
  | _, _ => Except.error TraceError.concretizationTypeError

/-- The plain-Python `f`: `if x > 0: return x else: return 2 * x`. -/
def f (x : ℤ) : ℤ := if 0 < x then x else 2 * x

/-- The native while loop of `g`: starting from `i`, increment while
`i < n`, and return the final `i`. -/
def gLoopZ (i n : ℤ) : ℤ :=
  if i < n then gLoopZ (i + 1) n else i
termination_by (n - i).toNat
decreasing_by omega

/-- The plain-Python `g`: `i = 0; while i < n: i += 1; return x + i`. -/
def g (x n : ℤ) : ℤ := x + gLoopZ 0 n

/-- Tracing the body of `f` on a jax value: the branch condition `x > 0`
must be coerced to a Python `bool`. -/
def fTraced (x : JaxVal) : Except TraceError JaxVal := do
  let b ← pyBoolLt (JaxVal.conc 0) x
  if b then pure x else pure (jmul (JaxVal.conc 2) x)

/-- Tracing the while loop of `g` with the Python counter `i` concrete: the
condition `i < n` on a tracer `n` fails its `bool` coercion at once, while
a concrete `n` lets the native loop run in Python. -/
def gTracedLoop (i : ℤ) : JaxVal → Except TraceError ℤ
  | JaxVal.tracer => Except.error TraceError.concretizationTypeError
  | JaxVal.conc m => Except.ok (gLoopZ i m)

/-- Tracing the body of `g`: run the loop from `i = 0`, then record the
addition `x + i`. -/
def gTraced (x n : JaxVal) : Except TraceError JaxVal :=
  (gTracedLoop 0 n).map (fun i => jadd x (JaxVal.conc i))

/-- Modelled from the spec: a `jax.jit`-compiled call first traces the
function with tracers substituted for its non-static arguments; if tracing
raises, the call raises, and otherwise the compiled code computes the plain
function value. -/
def jitRun (traced : Except TraceError JaxVal) (compiled : ℤ) :
    Except TraceError ℤ :=
  match traced with
  | Except.error e => Except.error e
  | Except.ok _ => Except.ok compiled

/-- `f_jit = jax.jit(f)`: the argument is traced abstractly. -/
def f_jit (x : ℤ) : Except TraceError ℤ :=
  jitRun (fTraced JaxVal.tracer) (f x)

/-- `g_jit = jax.jit(g)`: both arguments are traced abstractly. -/
def g_jit (x n : ℤ) : Except TraceError ℤ :=
  jitRun (gTraced JaxVal.tracer JaxVal.tracer) (g x n)

/-- `f_jit_correct = jax.jit(f, static_argnums=0)`: the argument stays
concrete during tracing. -/
def f_jit_correct (x : ℤ) : Except TraceError ℤ :=
  jitRun (fTraced (JaxVal.conc x)) (f x)

/-- `g_jit_correct = jax.jit(g, static_argnames=['n'])`: `n` stays concrete
during tracing while `x` is traced abstractly. -/
def g_jit_correct (x n : ℤ) : Except TraceError ℤ :=
  jitRun (gTraced JaxVal.tracer (JaxVal.conc n)) (g x n)

/-- Tracing `loop_body(prev_i) = prev_i + 1`: a pure jax addition, so
tracing always succeeds. -/
def loopBodyTraced (prev_i : JaxVal) : Except TraceError JaxVal :=
  Except.ok (jadd prev_i (JaxVal.conc 1))

/-- `loop_body = jax.jit(lambda prev_i: prev_i + 1)` applied to a concrete
Python `i`: tracing succeeds and the compiled code returns `i + 1`. -/
def loop_body_jit (i : ℤ) : Except TraceError ℤ :=
  jitRun (loopBodyTraced JaxVal.tracer) (i + 1)

/-- The while loop of `g_inner_jitted`: each iteration calls the jitted
loop body on the concrete Python counter. -/
def gInnerLoop (i n : ℤ) : Except TraceError ℤ :=
  if h : i < n then
    match hj : loop_body_jit i with
    | Except.error e => Except.error e
    | Except.ok j => gInnerLoop j n
  else Except.ok i
termination_by (n - i).toNat
decreasing_by
  simp [loop_body_jit, jitRun, loopBodyTraced] at hj
  omega

/-- `g_inner_jitted(x, n)`: the native loop with only its body jitted,
returning `x + i`. -/
def g_inner_jitted (x n : ℤ) : Except TraceError ℤ :=
  (gInnerLoop 0 n).map (fun i => x + i)

theorem gLoopZ_eq_of_le (i n : ℤ) (h : i ≤ n) : gLoopZ i n = n := by
  have H : ∀ k : ℕ, ∀ j : ℤ, (n - j).toNat = k → j ≤ n → gLoopZ j n = n := by
    intro k
    induction k using Nat.strong_induction_on with
    | _ k ih =>
      intro j hk hle
      rw [gLoopZ]
      by_cases hlt : j < n
      · simp only [hlt, if_true]
        exact ih (n - (j + 1)).toNat (by omega) (j + 1) rfl (by omega)
      · have hj : j = n := le_antisymm hle (by omega)
        simp [hlt, hj]
  exact H (n - i).toNat i rfl h

theorem gInnerLoop_eq_of_le (i n : ℤ) (h : i ≤ n) :
    gInnerLoop i n = Except.ok n := by
  have H : ∀ k : ℕ, ∀ j : ℤ, (n - j).toNat = k → j ≤ n →
      gInnerLoop j n = Except.ok n := by
    intro k
    induction k using Nat.strong_induction_on with
    | _ k ih =>
      intro j hk hle
      rw [gInnerLoop]
      by_cases hlt : j < n
      · simp only [hlt, dif_pos, loop_body_jit, jitRun, loopBodyTraced]
        exact ih (n - (j + 1)).toNat (by omega) (j + 1) rfl (by omega)
      · have hj : j = n := le_antisymm hle (by omega)
        simp [hlt, hj]
  exact H (n - i).toNat i rfl h

/-- C2: jitting a function whose Python control flow depends on the value
of a traced argument fails during tracing: `f_jit 10` and `g_jit 10 20`
both raise `ConcretizationTypeError`, while the variants whose offending
argument is marked static succeed and return the plain-Python results
`10` and `30`. -/
theorem jit_value_branching_errors :
    f_jit 10 = Except.error TraceError.concretizationTypeError ∧
    g_jit 10 20 = Except.error TraceError.concretizationTypeError ∧
    f_jit_correct 10 = Except.ok 10 ∧
    g_jit_correct 10 20 = Except.ok 30 := by
  refine ⟨rfl, rfl, rfl, ?_⟩
  show Except.ok (g 10 20) = Except.ok 30
  rw [g, gLoopZ_eq_of_le 0 20 (by norm_num)]
  norm_num

/-- C10: for every integer `x` and every non-negative `n`, the workarounds
compute the same function as the plain-Python `g`: `g x n = x + n`, and
both `g_inner_jitted` and `g_jit_correct` return `x + n`. -/
theorem g_workarounds_agree (x n : ℤ) (hn : 0 ≤ n) :
    g x n = x + n ∧
    g_inner_jitted x n = Except.ok (x + n) ∧
    g_jit_correct x n = Except.ok (x + n) := by
  have h1 : gLoopZ 0 n = n := gLoopZ_eq_of_le 0 n hn
  have h2 : gInnerLoop 0 n = Except.ok n := gInnerLoop_eq_of_le 0 n hn
  refine ⟨by rw [g, h1], ?_, ?_⟩
  · rw [g_inner_jitted, h2]; rfl
  · show Except.ok (g x n) = Except.ok (x + n)
    rw [g, h1]

theorem g_workarounds_agree_witness :
    (0 : ℤ) ≤ 20 ∧
      (g 10 20 = 10 + 20 ∧
        g_inner_jitted 10 20 = Except.ok (10 + 20) ∧
        g_jit_correct 10 20 = Except.ok (10 + 20)) :=
  ⟨by norm_num, g_workarounds_agree 10 20 (by norm_num)⟩

/-! ## The training loop `fit` (optax notebook, cell 3)

`fit` initialises the optimizer state, then iterates the jitted `step`
over `enumerate(zip(TRAINING_DATA, LABELS))`, printing the loss whenever
`i % 100 == 0`, and returns the final parameters.  It is embedded
parametrically in the step function (params, optimizer state, one data
pair ↦ new params, new state, loss value); the returned triple records the
final parameters, the printed log as `(step index, loss)` pairs, and the
number of update steps performed. -/

def fitAux {P S D L : Type} (stepF : P → S → D → P × S × L) :
    List D → ℕ → P → S → P × List (ℕ × L) × ℕ
  | [], _, p, _ => (p, [], 0)
  | d :: ds, i, p, s =>
    let r := stepF p s d
    let rest := fitAux stepF ds (i + 1) r.1 r.2.1
    (rest.1, (if i % 100 = 0 then [(i, r.2.2)] else []) ++ rest.2.1, rest.2.2 + 1)

def fit {P S D L : Type} (stepF : P → S → D → P × S × L) (initOpt : P → S)
    (data : List D) (params : P) : P × List (ℕ × L) × ℕ :=
  fitAux stepF data 0 params (initOpt params)

theorem fitAux_count {P S D L : Type} (stepF : P → S → D → P × S × L)
    (ds : List D) (i : ℕ) (p : P) (s : S) :
    (fitAux stepF ds i p s).2.2 = ds.length := by
  induction ds generalizing i p s with
  | nil => rfl
  | cons d ds ih => simp [fitAux, ih]

theorem fitAux_log_indices {P S D L : Type} (stepF : P → S → D → P × S × L)
    (ds : List D) (i : ℕ) (p : P) (s : S) :
    (fitAux stepF ds i p s).2.1.map Prod.fst
      = (List.range' i ds.length).filter (fun j => j % 100 = 0) := by
  induction ds generalizing i p s with
  | nil => rfl
  | cons d ds ih =>
    simp only [fitAux, List.map_append, ih, List.length_cons, List.range'_succ,
      List.filter_cons]
    by_cases hi : i % 100 = 0
    · simp [hi]
    · simp [hi]

theorem fitAux_params_foldl {P S D L : Type} (stepF : P → S → D → P × S × L)
    (ds : List D) (i : ℕ) (p : P) (s : S) :
    (fitAux stepF ds i p s).1
      = (ds.foldl (fun ps d => ((stepF ps.1 ps.2 d).1, (stepF ps.1 ps.2 d).2.1))
          (p, s)).1 := by
  induction ds generalizing i p s with
  | nil => rfl
  | cons d ds ih => simp [fitAux, ih]

set_option maxRecDepth 10000 in
/-- C3: for data of length `NUM_TRAIN_STEPS = 1000`, `fit` performs exactly
1000 update steps, its final parameters are the left fold of the step
function over the data pairs in order, and it prints a loss line exactly at
the step indices that are multiples of 100 — the ten lines
0, 100, ..., 900. -/
theorem fit_steps_and_log {P S D L : Type} (stepF : P → S → D → P × S × L)
    (initOpt : P → S) (data : List D) (params : P)
    (hlen : data.length = NUM_TRAIN_STEPS) :
    (fit stepF initOpt data params).2.2 = 1000 ∧
    (fit stepF initOpt data params).2.1.map Prod.fst
      = [0, 100, 200, 300, 400, 500, 600, 700, 800, 900] ∧
    (fit stepF initOpt data params).2.1.length = 10 ∧
    (fit stepF initOpt data params).1
      = (data.foldl (fun ps d => ((stepF ps.1 ps.2 d).1, (stepF ps.1 ps.2 d).2.1))
          (params, initOpt params)).1 := by
  have hidx : (fit stepF initOpt data params).2.1.map Prod.fst
      = [0, 100, 200, 300, 400, 500, 600, 700, 800, 900] := by
    rw [fit, fitAux_log_indices, hlen]
    rfl
  refine ⟨?_, hidx, ?_, ?_⟩
  · rw [fit, fitAux_count, hlen]; rfl
  · have := congrArg List.length hidx
    simpa using this
  · exact fitAux_params_foldl stepF data 0 params (initOpt params)

theorem fit_steps_and_log_witness :
    (List.replicate 1000 ()).length = NUM_TRAIN_STEPS ∧
      ((fit (fun (p s : ℕ) (_ : Unit) => (p + 1, s, p)) (fun _ => 0)
          (List.replicate 1000 ()) 0).2.2 = 1000 ∧
        (fit (fun (p s : ℕ) (_ : Unit) => (p + 1, s, p)) (fun _ => 0)
            (List.replicate 1000 ()) 0).2.1.map Prod.fst
          = [0, 100, 200, 300, 400, 500, 600, 700, 800, 900] ∧
        (fit (fun (p s : ℕ) (_ : Unit) => (p + 1, s, p)) (fun _ => 0)
            (List.replicate 1000 ()) 0).2.1.length = 10 ∧
        (fit (fun (p s : ℕ) (_ : Unit) => (p + 1, s, p)) (fun _ => 0)
            (List.replicate 1000 ()) 0).1
          = ((List.replicate 1000 ()).foldl
              (fun (ps : ℕ × ℕ) _ => (ps.1 + 1, ps.2)) (0, 0)).1) := by
  have hlen : (List.replicate 1000 ()).length = NUM_TRAIN_STEPS := by
    rw [List.length_replicate]; rfl
  exact ⟨hlen, fit_steps_and_log (fun (p s : ℕ) (_ : Unit) => (p + 1, s, p))
    (fun _ => 0) (List.replicate 1000 ()) 0 hlen⟩

/-! ## The network and loss (optax notebook, cell 2)

Floating-point arrays are embedded as real-valued matrices.  The batch
dimension is kept generic; the notebook uses `BATCH_SIZE = 5`. -/

/-- The parameter record built in the notebook: `{'hidden': [8, 32] matrix,
'output': [32, 2] matrix}`. -/
structure NetParams where
  hidden : Matrix (Fin 8) (Fin 32) ℝ
  output : Matrix (Fin 32) (Fin 2) ℝ

/-- `jax.nn.relu(x) = max(x, 0)`, applied element-wise. -/
noncomputable def relu (x : ℝ) : ℝ := max x 0

/-- The network `net`: `x = jnp.dot(x, params['hidden'])`, then
`x = jax.nn.relu(x)`, then `x = jnp.dot(x, params['output'])`. -/
noncomputable def net {B : ℕ} (x : Matrix (Fin B) (Fin 8) ℝ)
    (params : NetParams) : Matrix (Fin B) (Fin 2) ℝ :=
  let x1 := x * params.hidden
  let x2 := x1.map relu
  x2 * params.output

/-- `jax.nn.log_sigmoid(x) = -log(1 + exp(-x))`. -/
noncomputable def log_sigmoid (x : ℝ) : ℝ := -Real.log (1 + Real.exp (-x))

/-- `optax.sigmoid_binary_cross_entropy` on one logit/label pair:
`-labels * log_sigmoid(logits) - (1 - labels) * log_sigmoid(-logits)`. -/
noncomputable def sigmoid_binary_cross_entropy (logit label : ℝ) : ℝ :=
  -label * log_sigmoid logit - (1 - label) * log_sigmoid (-logit)

/-- `jnp.mean` of a vector. -/
noncomputable def npMean {B : ℕ} (v : Fin B → ℝ) : ℝ := (∑ b, v b) / B

/-- The notebook's `loss`: element-wise sigmoid binary cross-entropy
between `net(batch, params)` and the labels, summed over the last axis,
then averaged with `.mean()`. -/
noncomputable def loss {B : ℕ} (params : NetParams)
    (batch : Matrix (Fin B) (Fin 8) ℝ) (labels : Matrix (Fin B) (Fin 2) ℝ) :
    ℝ :=
  let y_hat := net batch params
  let loss_value := fun b : Fin B =>
    ∑ j : Fin 2, sigmoid_binary_cross_entropy (y_hat b j) (labels b j)
  npMean loss_value

/-- C4: the loss is the mean over the batch elements of the sum over the
two output components of the element-wise sigmoid binary cross-entropy
between the network output and the one-hot labels. -/
theorem loss_is_mean_of_summed_bce {B : ℕ} (params : NetParams)
    (batch : Matrix (Fin B) (Fin 8) ℝ) (labels : Matrix (Fin B) (Fin 2) ℝ) :
    loss params batch labels
      = (∑ b : Fin B, ∑ j : Fin 2,
          sigmoid_binary_cross_entropy (net batch params b j) (labels b j))
        / B := rfl

/-- C5: the network is the two-layer map `relu(x · hidden) · output` — in
each entry a sum of ReLU-rectified hidden activations weighted by the
output matrix, with no bias term and no output nonlinearity. -/
theorem net_two_layer {B : ℕ} (x : Matrix (Fin B) (Fin 8) ℝ)
    (params : NetParams) :
    net x params = ((x * params.hidden).map relu) * params.output ∧
    ∀ (b : Fin B) (j : Fin 2),
      net x params b j
        = ∑ k : Fin 32,
            relu (∑ i : Fin 8, x b i * params.hidden i k) * params.output k j := by
  refine ⟨rfl, fun b j => ?_⟩
  simp [net, Matrix.mul_apply, Matrix.map_apply]

/-! ## Optimizer configuration (optax notebook, cells 3 and 4)

The notebook calls `fit` twice: first with `optax.adam(learning_rate=1e-2)`
and then with `optax.chain(optax.clip(1.0), optax.adamw(learning_rate=
schedule))` where `schedule = optax.warmup_cosine_decay_schedule(
init_value=0.0, peak_value=1.0, warmup_steps=50, decay_steps=1_000,
end_value=0.0)`.  The optax combinators are external; their configuration
semantics are embedded below. -/

/-- Modelled from the spec: `optax.clip(max_delta)` clips every gradient
component element-wise, `jnp.clip(u, -max_delta, max_delta)`. -/
noncomputable def clipUpdate (max_delta u : ℝ) : ℝ :=
  min (max u (-max_delta)) max_delta

/-- Modelled from the spec: the linear warmup segment of the schedule,
`init + clip(count / transition_steps, 0, 1) * (end - init)`. -/
noncomputable def linear_schedule (init_value end_value : ℝ)
    (transition_steps count : ℕ) : ℝ :=
  init_value
    + min (max ((count : ℝ) / transition_steps) 0) 1 * (end_value - init_value)

/-- Modelled from the spec: `optax.cosine_decay_schedule`:
`init * ((1 - alpha) * (1 + cos(pi * min(count, decay) / decay)) / 2 + alpha)`. -/
noncomputable def cosine_decay_schedule (init_value : ℝ) (decay_steps : ℕ)
    (alpha : ℝ) (count : ℕ) : ℝ :=
  init_value
    * ((1 - alpha)
        * (1 + Real.cos (Real.pi * (min count decay_steps : ℕ) / decay_steps))
        / 2
      + alpha)

/-- Modelled from the spec: `optax.warmup_cosine_decay_schedule` joins a
linear warmup to the peak over `warmup_steps` with a cosine decay over the
remaining `decay_steps - warmup_steps` counts down to `end_value`. -/
noncomputable def warmup_cosine_decay_schedule (init_value peak_value : ℝ)
    (warmup_steps decay_steps : ℕ) (end_value : ℝ) (count : ℕ) : ℝ :=
  if count < warmup_steps then
    linear_schedule init_value peak_value warmup_steps count
  else
    cosine_decay_schedule peak_value (decay_steps - warmup_steps)
      (end_value / peak_value) (count - warmup_steps)

/-- The learning-rate schedule built in cell 4. -/
noncomputable def schedule : ℕ → ℝ :=
  warmup_cosine_decay_schedule 0.0 1.0 50 1000 0.0

/-- A configuration-level description of an optax gradient transformation:
which combinator is used with which hyperparameters (a constant learning
rate is the constant schedule). -/
inductive OptimizerDesc where
  | adam (learning_rate : ℕ → ℝ)
  | adamw (learning_rate : ℕ → ℝ)
  | clip (max_delta : ℝ)
  | chain (parts : List OptimizerDesc)

/-- The optimizer of the first run: `optax.adam(learning_rate=1e-2)`. -/
noncomputable def run1_optimizer : OptimizerDesc :=
  OptimizerDesc.adam (fun _ => (1e-2 : ℝ))

/-- The optimizer of the second run:
`optax.chain(optax.clip(1.0), optax.adamw(learning_rate=schedule))`. -/
noncomputable def run2_optimizer : OptimizerDesc :=
  OptimizerDesc.chain [OptimizerDesc.clip 1.0, OptimizerDesc.adamw schedule]

/-- C6: the first run uses plain adam at constant learning rate `1/100`;
the second chains an element-wise clip of every gradient component to
`[-1, 1]` with adamw under the warmup-cosine schedule, which rises
linearly from `0` to the peak `1` over the first 50 steps and then follows
a cosine decay that reaches `0` at step 1000. -/
theorem optimizer_runs_config :
    run1_optimizer = OptimizerDesc.adam (fun _ => (1 : ℝ) / 100) ∧
    run2_optimizer
      = OptimizerDesc.chain [OptimizerDesc.clip 1, OptimizerDesc.adamw schedule] ∧
    (∀ u : ℝ, -1 ≤ clipUpdate 1 u ∧ clipUpdate 1 u ≤ 1 ∧
      (-1 ≤ u → u ≤ 1 → clipUpdate 1 u = u)) ∧
    (∀ t : ℕ, t ≤ 50 → schedule t = (t : ℝ) / 50) ∧
    schedule 0 = 0 ∧
    schedule 50 = 1 ∧
    (∀ t : ℕ, 50 ≤ t → t ≤ 1000 →
      schedule t = (1 + Real.cos (Real.pi * ((t : ℝ) - 50) / 950)) / 2) ∧
    schedule 1000 = 0 := by
  have hcos : ∀ t : ℕ, 50 ≤ t → t ≤ 1000 →
      schedule t = (1 + Real.cos (Real.pi * ((t : ℝ) - 50) / 950)) / 2 := by
    intro t h50 h1000
    have hnotlt : ¬ t < 50 := by omega
    have hmin : min (t - 50) (1000 - 50) = t - 50 := by omega
    rw [schedule, warmup_cosine_decay_schedule, if_neg hnotlt,
      cosine_decay_schedule, hmin]
    have hcast : ((t - 50 : ℕ) : ℝ) = (t : ℝ) - 50 := by
      push_cast [Nat.cast_sub h50]
      ring
    rw [hcast]
    norm_num
  have hlin : ∀ t : ℕ, t ≤ 50 → schedule t = (t : ℝ) / 50 := by
    intro t ht
    rcases lt_or_eq_of_le ht with hlt | heq
    · have hfrac0 : (0 : ℝ) ≤ (t : ℝ) / 50 := by positivity
      have hfrac1 : (t : ℝ) / 50 ≤ 1 := by
        rw [div_le_one (by norm_num)]
        exact_mod_cast hlt.le
      rw [schedule, warmup_cosine_decay_schedule, if_pos hlt, linear_schedule]
      push_cast
      rw [max_eq_left hfrac0, min_eq_left hfrac1]
      ring
    · subst heq
      have h := hcos 50 le_rfl (by norm_num)
      rw [h]
      norm_num
  refine ⟨?_, ?_, ?_, hlin, ?_, ?_, hcos, ?_⟩
  · rw [run1_optimizer]
    congr 1
    funext t
    norm_num
  · rw [run2_optimizer]
    norm_num
  · intro u
    refine ⟨le_min (le_max_right u (-1)) (by norm_num), min_le_right _ _, ?_⟩
    intro h1 h2
    rw [clipUpdate, max_eq_left h1, min_eq_left h2]
  · rw [hlin 0 (by norm_num)]
    norm_num
  · rw [hlin 50 le_rfl]
    norm_num
  · rw [hcos 1000 (by norm_num) le_rfl]
    have hπ : Real.pi * (((1000 : ℕ) : ℝ) - 50) / 950 = Real.pi := by
      push_cast
      rw [mul_div_assoc]
      norm_num
    rw [hπ, Real.cos_pi]
    norm_num

theorem optimizer_runs_config_witness :
    (25 : ℕ) ≤ 50 ∧ schedule 25 = ((25 : ℕ) : ℝ) / 50 :=
  ⟨by norm_num, optimizer_runs_config.2.2.2.1 25 (by norm_num)⟩

/-! ## Shape invariance of the parameter record (C7)

For the shape invariant the parameter record is embedded untyped, as it is
in Python: a record with exactly the keys `hidden` and `output`, each
holding a matrix as a list of rows.  `optax.apply_updates` adds updates to
parameters leafwise; the gradients/updates produced by
`jax.value_and_grad` and `optimizer.update` are external and are only
assumed to preserve shapes (a framework guarantee), which the step
function hypothesis records. -/

/-- The Python parameter record: exactly the keys `hidden` and `output`. -/
structure PyParams where
  hidden : List (List ℚ)
  output : List (List ℚ)

/-- A list-of-rows matrix has `r` rows, each of length `c`. -/
def matShape (m : List (List ℚ)) (r c : ℕ) : Prop :=
  m.length = r ∧ ∀ row ∈ m, row.length = c

/-- The spec's shape invariant: `hidden` is `8 × 32` and `output` is
`32 × 2`. -/
def wellShaped (p : PyParams) : Prop :=
  matShape p.hidden 8 32 ∧ matShape p.output 32 2

/-- Leafwise matrix addition, `p + u` on one weight matrix. -/
def matAdd (a b : List (List ℚ)) : List (List ℚ) :=
  List.zipWith (fun ra rb => List.zipWith (fun x y => x + y) ra rb) a b

/-- `optax.apply_updates(params, updates)`: add the updates to the
parameters leaf by leaf. -/
def apply_updates (p u : PyParams) : PyParams :=
  ⟨matAdd p.hidden u.hidden, matAdd p.output u.output⟩

/-- `initial_params`: `jax.random.normal` draws of shapes `[8, 32]` and
`[32, 2]`; the entries are abstracted as given functions of the index. -/
def initial_params (fh fo : ℕ → ℕ → ℚ) : PyParams :=
  ⟨(List.range 8).map (fun i => (List.range 32).map (fh i)),
   (List.range 32).map (fun i => (List.range 2).map (fo i))⟩

/-- The parameter trajectory of one `fit` run: at each step `t` the
optimizer produces updates `updFn p t` from the current parameters, and
`apply_updates` folds them in. -/
def trainRun (updFn : PyParams → ℕ → PyParams) (n : ℕ) (p : PyParams) :
    PyParams :=
  (List.range n).foldl (fun q t => apply_updates q (updFn q t)) p

theorem matAdd_rows_length (c : ℕ) :
    ∀ (a b : List (List ℚ)),
      (∀ row ∈ a, row.length = c) → (∀ row ∈ b, row.length = c) →
      ∀ row ∈ matAdd a b, row.length = c := by
  intro a
  induction a with
  | nil => intro b _ _ row hrow; simp [matAdd] at hrow
  | cons x xs ih =>
    intro b ha hb row hrow
    cases b with
    | nil => simp [matAdd] at hrow
    | cons y ys =>
      simp only [matAdd, List.zipWith_cons_cons, List.mem_cons] at hrow
      rcases hrow with hrow | hrow
      · subst hrow
        rw [List.length_zipWith, ha x (by simp), hb y (by simp)]
        exact min_self c
      · exact ih ys (fun r hr => ha r (by simp [hr])) (fun r hr => hb r (by simp [hr]))
          row hrow

theorem matAdd_shape {a b : List (List ℚ)} {r c : ℕ}
    (ha : matShape a r c) (hb : matShape b r c) : matShape (matAdd a b) r c := by
  refine ⟨?_, matAdd_rows_length c a b ha.2 hb.2⟩
  rw [matAdd, List.length_zipWith, ha.1, hb.1]
  exact min_self r

theorem apply_updates_shape {p u : PyParams}
    (hp : wellShaped p) (hu : wellShaped u) :
    wellShaped (apply_updates p u) :=
  ⟨matAdd_shape hp.1 hu.1, matAdd_shape hp.2 hu.2⟩

theorem initial_params_shape (fh fo : ℕ → ℕ → ℚ) :
    wellShaped (initial_params fh fo) := by
  constructor <;>
    (constructor
     · simp [initial_params]
     · intro row hrow
       simp only [initial_params, List.mem_map] at hrow
       obtain ⟨i, _, hrow⟩ := hrow
       simp [← hrow])

theorem trainRun_succ (updFn : PyParams → ℕ → PyParams) (n : ℕ) (p : PyParams) :
    trainRun updFn (n + 1) p
      = apply_updates (trainRun updFn n p) (updFn (trainRun updFn n p) n) := by
  rw [trainRun, trainRun, List.range_succ, List.foldl_append]
  rfl

/-- C7: the initial parameter record has exactly the keys `hidden` and
`output` with matrices of shape `8 × 32` and `32 × 2`; each training step
(shape-preserving gradient/update computation followed by
`optax.apply_updates`) preserves these shapes, so the invariant holds at
every step of a 1000-step run. -/
theorem params_shape_invariant (fh fo : ℕ → ℕ → ℚ)
    (updFn : PyParams → ℕ → PyParams)
    (hupd : ∀ p t, wellShaped p → wellShaped (updFn p t)) :
    wellShaped (initial_params fh fo) ∧
    (∀ p t, wellShaped p → wellShaped (apply_updates p (updFn p t))) ∧
    ∀ n : ℕ, n ≤ NUM_TRAIN_STEPS →
      wellShaped (trainRun updFn n (initial_params fh fo)) := by
  have hstep : ∀ p t, wellShaped p → wellShaped (apply_updates p (updFn p t)) :=
    fun p t hp => apply_updates_shape hp (hupd p t hp)
  refine ⟨initial_params_shape fh fo, hstep, ?_⟩
  have hall : ∀ n : ℕ, wellShaped (trainRun updFn n (initial_params fh fo)) := by
    intro n
    induction n with
    | zero => exact initial_params_shape fh fo
    | succ n ih =>
      rw [trainRun_succ]
      exact hstep _ n ih
  exact fun n _ => hall n

theorem params_shape_invariant_witness :
    wellShaped (initial_params (fun _ _ => 0) (fun _ _ => 0)) ∧
    ((1000 : ℕ) ≤ NUM_TRAIN_STEPS ∧
      wellShaped
        (trainRun (fun p _ => p) 1000 (initial_params (fun _ _ => 0) (fun _ _ => 0)))) :=
  ⟨(params_shape_invariant (fun _ _ => 0) (fun _ _ => 0) (fun p _ => p)
      (fun _ _ h => h)).1,
   by decide,
   (params_shape_invariant (fun _ _ => 0) (fun _ _ => 0) (fun p _ => p)
      (fun _ _ h => h)).2.2 1000 (by decide)⟩

/-! ## Recorded run outputs (optax notebook, cells 3 and 4)

The loss values actually printed by the two recorded runs, as exact
decimals.  The first run uses plain adam, the second the clipped adamw
with the warmup-cosine schedule; both print one line per logged step
0, 100, ..., 900. -/

/-- The ten losses printed by the adam run, in step order. -/
def run1_logged_losses : List ℚ :=
  [5.507180690765381, 0.229142427444458, 0.03447369486093521,
   0.006939497776329517, 0.006980330683290958, 0.015318550169467926,
   0.009581432677805424, 0.00931396521627903, 0.004092650953680277,
   0.0008034102502278984]

/-- The ten losses printed by the clipped-adamw run, in step order. -/
def run2_logged_losses : List ℚ :=
  [5.507180690765381, 1.0336355463053415e-17, 3.111113797138465e-12,
   6.953975722579785e-17, 1.3526211438856197e-18, 1.2548147416968636e-11,
   6.068839875084109e-11, 1.343288147381827e-07, 1.6410630195923996e-15,
   1.357956165293217e-07]

/-- C8: in each recorded run the loss printed at step 0 is larger than
every loss printed at the later logged steps of the same run. -/
theorem loss_trends_downward :
    run1_logged_losses.head? = some 5.507180690765381 ∧
    run2_logged_losses.head? = some 5.507180690765381 ∧
    (∀ q ∈ run1_logged_losses.tail, q < 5.507180690765381) ∧
    (∀ q ∈ run2_logged_losses.tail, q < 5.507180690765381) := by
  refine ⟨rfl, rfl, ?_, ?_⟩ <;>
    · intro q hq
      simp only [run1_logged_losses, run2_logged_losses, List.tail_cons,
        List.mem_cons, List.not_mem_nil, or_false] at hq
      rcases hq with rfl | rfl | rfl | rfl | rfl | rfl | rfl | rfl | rfl <;>
        norm_num

theorem loss_trends_downward_witness :
    (0.229142427444458 : ℚ) ∈ run1_logged_losses.tail ∧
      (0.229142427444458 : ℚ) < 5.507180690765381 :=
  ⟨by simp [run1_logged_losses],
   loss_trends_downward.2.2.1 0.229142427444458 (by simp [run1_logged_losses])⟩

/-! ## Frame effects of `fit` (C9)

`fit` reads the module-level `TRAINING_DATA` and `LABELS` but never
assigns to them, and only rebinds its local `params`; passing the globals
explicitly, a call returns them unchanged, so a second call from the same
initial parameters sees the same data and computes the same results — in
particular the recorded step-0 loss is identical across the two runs. -/

/-- The module-level state the notebook's `fit` reads: the pre-generated
training batches and labels. -/
structure TrainingGlobals (D L : Type) where
  trainingData : List D
  labelsData : List L

/-- The notebook's `fit` with its reads of the module-level state made
explicit: it consumes `zip(TRAINING_DATA, LABELS)` and returns the
unmodified globals alongside its result. -/
def fitWithGlobals {P S D L V : Type} (stepF : P → S → D × L → P × S × V)
    (initOpt : P → S) (gs : TrainingGlobals D L) (params : P) :
    (P × List (ℕ × V) × ℕ) × TrainingGlobals D L :=
  (fit stepF initOpt (gs.trainingData.zip gs.labelsData) params, gs)

/-- C9: `fit` leaves the globals (and its parameter argument, which is
never written through) unchanged, so a second call on the state left by
the first, starting from the same initial parameters, returns exactly the
first call's results; accordingly the two recorded runs print the same
step-0 loss, `5.507180690765381`. -/
theorem fit_no_mutation {P S D L V : Type} (stepF : P → S → D × L → P × S × V)
    (initOpt : P → S) (gs : TrainingGlobals D L) (params : P) :
    (fitWithGlobals stepF initOpt gs params).2 = gs ∧
    fitWithGlobals stepF initOpt (fitWithGlobals stepF initOpt gs params).2 params
      = fitWithGlobals stepF initOpt gs params ∧
    run1_logged_losses.head? = run2_logged_losses.head? ∧
    run1_logged_losses.head? = some 5.507180690765381 :=
  ⟨rfl, rfl, rfl, rfl⟩

end JaxLearning
